import Mathlib

/-!
Shallow embedding of the tsmcp LSP client core (src/lsp/client.ts), its path
and error utilities (src/utils/pathUtils.ts, src/utils/errorHandler.ts), and
the LSP tool facade (lspTools.ts), together with proofs about the claims of
the specification.

The external language-server process is modelled as an oracle: every
operation that awaits a server response receives that response as an
explicit argument.  File storage is modelled as a total function from path
to content, and the node `resolve` function as an abstract function parameter.  Machine
interaction (frames written to the transport, files read from storage) is
returned explicitly from each operation.
-/

namespace Tsmcp

/-! ## JavaScript string primitives used by the source -/

/-- JS `String.prototype.startsWith`. -/
def jsStartsWith (s pre : String) : Bool :=
  pre.data.isPrefixOf s.data

/-- JS `String.prototype.slice(n)` (drop the first `n` code units). -/
def jsSlice (s : String) (n : Nat) : String :=
  String.mk (s.data.drop n)

/-- JS `String.prototype.includes`. -/
def jsIncludes (s sub : String) : Bool :=
  (List.range (s.data.length + 1)).any
    (fun i => sub.data.isPrefixOf (s.data.drop i))

/-- JS `String.prototype.endsWith`. -/
def jsEndsWith (s suf : String) : Bool :=
  suf.data.reverse.isPrefixOf s.data.reverse

/-- JS `String.prototype.toLowerCase`, character by character. -/
def jsToLowerCase (s : String) : String :=
  String.mk (s.data.map Char.toLower)

/-! ## JS `Map` and `Set` as association lists / lists (insertion order kept) -/

/-- JS `Map.prototype.get`. -/
def mapGet {α : Type} (m : List (String × α)) (k : String) : Option α :=
  (m.find? (fun p => p.1 = k)).map Prod.snd

/-- JS `Map.prototype.set`: replace in place, or append at the end. -/
def mapSet {α : Type} (m : List (String × α)) (k : String) (v : α) :
    List (String × α) :=
  if (m.find? (fun p => p.1 = k)).isSome then
    m.map (fun p => if p.1 = k then (k, v) else p)
  else
    m ++ [(k, v)]

/-- JS `Map.prototype.delete` (also used for `Set.prototype.delete`). -/
def mapDelete {α : Type} (m : List (String × α)) (k : String) :
    List (String × α) :=
  m.filter (fun p => ¬ p.1 = k)

/-- JS `Set.prototype.add`. -/
def setAdd (s : List String) (k : String) : List String :=
  if k ∈ s then s else s ++ [k]

/-- JS `Set.prototype.delete`. -/
def setDelete (s : List String) (k : String) : List String :=
  s.filter (fun x => ¬ x = k)

/-! ## Path utilities (src/utils/pathUtils.ts)

`resolve` comes from `node:path` and is an external collaborator of the
core; it is passed in as an abstract function from path to resolved path. -/

/-- Definition `normalizeUri` from src/utils/pathUtils.ts: prepend `file://` to the
resolved path unless the string already carries the scheme. -/
def normalizeUri (resolve : String → String) (path : String) : String :=
  if jsStartsWith path "file://" then path
  else "file://" ++ resolve path

/-- Definition `uriToPath` from src/utils/pathUtils.ts: strip a leading `file://`. -/
def uriToPath (uri : String) : String :=
  if jsStartsWith uri "file://" then jsSlice uri 7 else uri

/-- Definition `pathToUri` from src/utils/pathUtils.ts: alias of `normalizeUri`. -/
def pathToUri (resolve : String → String) (path : String) : String :=
  normalizeUri resolve path

/-- Function `extname` from `node:path`: the extension of the basename, empty when the
basename has no dot past its first character. -/
def extname (p : String) : String :=
  let base := ((p.data.reverse.takeWhile (fun c => ¬ c = '/')).reverse)
  match (List.range base.length).filter
      (fun i => base.get? i = some '.' ∧ 0 < i) |>.getLast? with
  | some i => String.mk (base.drop i)
  | none => ""

/-- Definition `getLanguageId` from src/utils/pathUtils.ts. -/
def getLanguageId (path : String) : String :=
  let ext := jsToLowerCase (extname path)
  if ext = ".ts" then "typescript"
  else if ext = ".tsx" then "typescriptreact"
  else if ext = ".js" then "javascript"
  else if ext = ".jsx" then "javascriptreact"
  else "typescript"

/-! ## Protocol data (src/types.ts / vscode-languageserver-protocol)

Positions are stored as integers: the tool layer converts one-based user
input to zero-based positions by subtracting one, which can go below zero
for malformed input, so `Int` is the faithful carrier. -/

structure Position where
  line : Int
  character : Int
deriving Repr, DecidableEq

structure LspRange where
  start : Position
  stop : Position
deriving Repr, DecidableEq

structure Location where
  uri : String
  range : LspRange
deriving Repr, DecidableEq

structure Diagnostic where
  range : LspRange
  message : String
  severity : Option Int
  source : Option String
deriving Repr, DecidableEq

structure CompletionItem where
  label : String
  kind : Option Int
  detail : Option String
deriving Repr, DecidableEq

structure TextEdit where
  range : LspRange
  newText : String
deriving Repr, DecidableEq

structure WorkspaceEdit where
  changes : List (String × List TextEdit)
deriving Repr, DecidableEq

/-- One piece of LSP hover contents: a bare string or `{ value }`. -/
inductive HoverPiece
  | str (s : String)
  | marked (value : String)
deriving Repr, DecidableEq

/-- LSP hover contents: a single piece or an array of pieces. -/
inductive HoverContents
  | one (p : HoverPiece)
  | many (ps : List HoverPiece)
deriving Repr, DecidableEq

structure Hover where
  contents : HoverContents
deriving Repr, DecidableEq

/-- The truthiness of a capability field as seen through `!!` in the
source: absent, an explicit boolean, or an options object (truthy). -/
inductive CapValue
  | undef
  | boolVal (b : Bool)
  | objVal
deriving Repr, DecidableEq

def CapValue.truthy : CapValue → Bool
  | .undef => false
  | .boolVal b => b
  | .objVal => true

structure ServerCapabilities where
  hoverProvider : CapValue
  completionProvider : CapValue
  definitionProvider : CapValue
  referencesProvider : CapValue
  renameProvider : CapValue
  documentSymbolProvider : CapValue
  workspaceSymbolProvider : CapValue
  codeActionProvider : CapValue
  documentFormattingProvider : CapValue
  documentRangeFormattingProvider : CapValue
  signatureHelpProvider : CapValue
deriving Repr, DecidableEq

/-! ## Error handling (src/utils/errorHandler.ts) -/

/-- A thrown JavaScript value: an `Error` instance, a string, or anything
else (represented by its `String(error)` rendering). -/
inductive Thrown
  | errorObj (message : String)
  | stringVal (s : String)
  | otherVal (repr : String)
deriving Repr, DecidableEq

structure ErrorContext where
  operation : String
  file : Option String
  position : Option Position
  symbolName : Option String
deriving Repr, DecidableEq

/-- Definition `formatError` from src/utils/errorHandler.ts. -/
def formatError (error : Thrown) (context : Option ErrorContext) : String :=
  let message :=
    match error with
    | .errorObj m => m
    | .stringVal s => s
    | .otherVal r => r
  match context with
  | none => message
  | some ctx =>
    let parts := ["Operation: " ++ ctx.operation]
    let parts := parts ++
      (match ctx.file with
       | some f => ["File: " ++ f]
       | none => [])
    let parts := parts ++
      (match ctx.position with
       | some p => ["Position: " ++ toString (p.line + 1) ++ ":" ++
           toString (p.character + 1)]
       | none => [])
    let parts := parts ++
      (match ctx.symbolName with
       | some s => ["Symbol: " ++ s]
       | none => [])
    message ++ " (" ++ String.intercalate ", " parts ++ ")"

/-- The `TSMCPError` class: a context-annotated wrapper error. -/
structure TSMCPError where
  message : String
  context : Option ErrorContext
  originalError : Option Thrown
deriving Repr, DecidableEq

/-- The catch branch of `withErrorHandling`: wrap a thrown value with context. -/
def wrapThrown (context : ErrorContext) (error : Thrown) : TSMCPError :=
  { message := formatError error (some context)
    context := some context
    originalError :=
      match error with
      | .errorObj m => some (.errorObj m)
      | _ => none }

/-- Definition `isTimeoutError` from src/utils/errorHandler.ts. -/
def isTimeoutError (error : Thrown) : Bool :=
  match error with
  | .errorObj m =>
      jsIncludes (jsToLowerCase m) "timeout" ||
        jsIncludes (jsToLowerCase m) "timed out"
  | _ => false

/-- Definition `isNotSupportedError` from src/utils/errorHandler.ts. -/
def isNotSupportedError (error : Thrown) : Bool :=
  match error with
  | .errorObj m =>
      jsIncludes m "not supported" || jsIncludes m "Method not found" ||
        jsIncludes m "Unhandled method"
  | _ => false

/-! ## Client state and transport frames (src/lsp/client.ts)

The `TypeScriptLSPClient` fields; `connection` and `serverProcess` are
optional handles, modelled by their presence. -/

structure ClientState where
  connection : Bool
  serverProcess : Bool
  serverCapabilities : Option ServerCapabilities
  initialized : Bool
  documentVersions : List (String × Int)
  openDocuments : List String
  diagnostics : List (String × List Diagnostic)
deriving Repr, DecidableEq

/-- A message written to the transport by the client. -/
inductive Frame
  | reqHover (uri : String) (pos : Position)
  | reqDefinition (uri : String) (pos : Position)
  | reqReferences (uri : String) (pos : Position) (includeDeclaration : Bool)
  | reqCompletion (uri : String) (pos : Position)
  | reqRename (uri : String) (pos : Position) (newName : String)
  | reqShutdown
  | notifExit
  | notifDidOpen (uri : String) (languageId : String) (version : Int)
      (text : String)
  | notifDidClose (uri : String)
deriving Repr, DecidableEq

/-- The outcome of one client operation: the value or wrapped error it
resolves to, the state afterwards, the frames written to the transport, and
the files read from storage (in order). -/
structure OpResult (α : Type) where
  result : Except TSMCPError α
  state : ClientState
  frames : List Frame
  reads : List String
deriving Repr

/-- Definition `supportsFeature` from src/lsp/client.ts: pure lookup against the
capability snapshot, `false` when no snapshot was ever captured. -/
def supportsFeature (s : ClientState) (feature : String) : Bool :=
  match s.serverCapabilities with
  | none => false
  | some caps =>
    if feature = "hover" then caps.hoverProvider.truthy
    else if feature = "completion" then caps.completionProvider.truthy
    else if feature = "definition" then caps.definitionProvider.truthy
    else if feature = "references" then caps.referencesProvider.truthy
    else if feature = "rename" then caps.renameProvider.truthy
    else if feature = "documentSymbol" then
      caps.documentSymbolProvider.truthy
    else if feature = "workspaceSymbol" then
      caps.workspaceSymbolProvider.truthy
    else if feature = "codeAction" then caps.codeActionProvider.truthy
    else if feature = "formatting" then
      caps.documentFormattingProvider.truthy
    else if feature = "rangeFormatting" then
      caps.documentRangeFormattingProvider.truthy
    else if feature = "signatureHelp" then caps.signatureHelpProvider.truthy
    else if feature = "diagnostics" then true
    else false

/-- Definition `isInitialized` from src/lsp/client.ts. -/
def isInitialized (s : ClientState) : Bool :=
  s.initialized

/-- The `textDocument/publishDiagnostics` notification handler registered in
`start`: wholesale replacement of the cached set for the pushed URI. -/
def handlePublishDiagnostics (s : ClientState) (uri : String)
    (diags : List Diagnostic) : ClientState :=
  { s with diagnostics := mapSet s.diagnostics uri diags }

/-! ## Document management (src/lsp/client.ts) -/

/-- Definition `openDocument` from src/lsp/client.ts: record version 1 and membership,
then send `textDocument/didOpen`; a no-op without a connection or when the
document is already open. -/
def openDocument (s : ClientState) (uri text : String)
    (languageId : Option String) : ClientState × List Frame :=
  if s.connection = false ∨ uri ∈ s.openDocuments then (s, [])
  else
    let actualLanguageId := languageId.getD (getLanguageId (uriToPath uri))
    let version : Int := 1
    ({ s with
        documentVersions := mapSet s.documentVersions uri version
        openDocuments := setAdd s.openDocuments uri },
      [.notifDidOpen uri actualLanguageId version text])

/-- Definition `closeDocument` from src/lsp/client.ts: send `textDocument/didClose`
and drop the open flag, the version entry and the diagnostics entry. -/
def closeDocument (s : ClientState) (uri : String) :
    ClientState × List Frame :=
  if s.connection = false ∨ uri ∉ s.openDocuments then (s, [])
  else
    ({ s with
        openDocuments := setDelete s.openDocuments uri
        documentVersions := mapDelete s.documentVersions uri
        diagnostics := mapDelete s.diagnostics uri },
      [.notifDidClose uri])

/-- Definition `ensureDocumentOpen` from src/lsp/client.ts: read the file and open it
unless its URI is already tracked; returns the URI, the new state, the
frames sent and the files read. -/
def ensureDocumentOpen (resolve : String → String) (fs : String → String)
    (s : ClientState) (filePath : String) :
    String × ClientState × List Frame × List String :=
  let uri := pathToUri resolve filePath
  if uri ∈ s.openDocuments then (uri, s, [], [])
  else
    let content := fs filePath
    let (s', frames) := openDocument s uri content none
    (uri, s', frames, [filePath])

/-! ## LSP operations (src/lsp/client.ts)

Each operation runs under `withErrorHandling` with its own context; the
server answer to the one correlated request is the `resp` oracle. -/

/-- The raw `textDocument/definition` result: `null`, one `Location`, or an
array of `Location`s. -/
inductive DefinitionResult
  | nullResult
  | single (loc : Location)
  | locations (locs : List Location)
deriving Repr, DecidableEq

/-- The raw `textDocument/completion` result: `null`, a bare item array, or
a `CompletionList` container whose `items` field may be absent. -/
inductive CompletionResult
  | nullResult
  | bare (xs : List CompletionItem)
  | container (itemsField : Option (List CompletionItem))
deriving Repr, DecidableEq

/-- The result-shape handling inside `getDefinition`:
`if (!result) return []; if (Array.isArray(result)) return result;
return [result];`. -/
def normalizeDefinitionResult : DefinitionResult → List Location
  | .nullResult => []
  | .single loc => [loc]
  | .locations locs => locs

/-- The result-shape handling inside `getCompletion`:
`if (!result) return []; if (Array.isArray(result)) return result;
return result.items || [];`. -/
def normalizeCompletionResult : CompletionResult → List CompletionItem
  | .nullResult => []
  | .bare xs => xs
  | .container itemsField => itemsField.getD []

/-- Definition `getHover` from src/lsp/client.ts. -/
def getHover (resolve : String → String) (fs : String → String)
    (s : ClientState) (filePath : String) (position : Position)
    (resp : Except Thrown (Option Hover)) : OpResult (Option Hover) :=
  let context : ErrorContext :=
    { operation := "getHover", file := some filePath
      position := some position, symbolName := none }
  if s.connection = false then
    { result := .error (wrapThrown context
        (.errorObj "LSP client not initialized"))
      state := s, frames := [], reads := [] }
  else if supportsFeature s "hover" = false then
    { result := .error (wrapThrown context (.errorObj "Hover not supported"))
      state := s, frames := [], reads := [] }
  else
    let (uri, s', frames, reads) := ensureDocumentOpen resolve fs s filePath
    let frames := frames ++ [.reqHover uri position]
    match resp with
    | .ok h =>
        { result := .ok h, state := s', frames := frames, reads := reads }
    | .error t =>
        { result := .error (wrapThrown context t)
          state := s', frames := frames, reads := reads }

/-- Definition `getDefinition` from src/lsp/client.ts, including its result-shape
normalization: `null` becomes `[]`, a single location becomes a singleton
array, an array passes through unchanged. -/
def getDefinition (resolve : String → String) (fs : String → String)
    (s : ClientState) (filePath : String) (position : Position)
    (resp : Except Thrown DefinitionResult) : OpResult (List Location) :=
  let context : ErrorContext :=
    { operation := "getDefinition", file := some filePath
      position := some position, symbolName := none }
  if s.connection = false then
    { result := .error (wrapThrown context
        (.errorObj "LSP client not initialized"))
      state := s, frames := [], reads := [] }
  else if supportsFeature s "definition" = false then
    { result := .error (wrapThrown context
        (.errorObj "Definition not supported"))
      state := s, frames := [], reads := [] }
  else
    let (uri, s', frames, reads) := ensureDocumentOpen resolve fs s filePath
    let frames := frames ++ [.reqDefinition uri position]
    match resp with
    | .ok raw =>
        { result := .ok (normalizeDefinitionResult raw), state := s'
          frames := frames, reads := reads }
    | .error t =>
        { result := .error (wrapThrown context t)
          state := s', frames := frames, reads := reads }

/-- Definition `getReferences` from src/lsp/client.ts (`result || []`). -/
def getReferences (resolve : String → String) (fs : String → String)
    (s : ClientState) (filePath : String) (position : Position)
    (includeDeclaration : Bool)
    (resp : Except Thrown (Option (List Location))) :
    OpResult (List Location) :=
  let context : ErrorContext :=
    { operation := "getReferences", file := some filePath
      position := some position, symbolName := none }
  if s.connection = false then
    { result := .error (wrapThrown context
        (.errorObj "LSP client not initialized"))
      state := s, frames := [], reads := [] }
  else if supportsFeature s "references" = false then
    { result := .error (wrapThrown context
        (.errorObj "References not supported"))
      state := s, frames := [], reads := [] }
  else
    let (uri, s', frames, reads) := ensureDocumentOpen resolve fs s filePath
    let frames := frames ++ [.reqReferences uri position includeDeclaration]
    match resp with
    | .ok r =>
        { result := .ok (r.getD []), state := s', frames := frames
          reads := reads }
    | .error t =>
        { result := .error (wrapThrown context t)
          state := s', frames := frames, reads := reads }

/-- Definition `getCompletion` from src/lsp/client.ts, including its result-shape
normalization: `null` becomes `[]`, a bare array passes through, and a
container contributes `items || []`. -/
def getCompletion (resolve : String → String) (fs : String → String)
    (s : ClientState) (filePath : String) (position : Position)
    (resp : Except Thrown CompletionResult) :
    OpResult (List CompletionItem) :=
  let context : ErrorContext :=
    { operation := "getCompletion", file := some filePath
      position := some position, symbolName := none }
  if s.connection = false then
    { result := .error (wrapThrown context
        (.errorObj "LSP client not initialized"))
      state := s, frames := [], reads := [] }
  else if supportsFeature s "completion" = false then
    { result := .error (wrapThrown context
        (.errorObj "Completion not supported"))
      state := s, frames := [], reads := [] }
  else
    let (uri, s', frames, reads) := ensureDocumentOpen resolve fs s filePath
    let frames := frames ++ [.reqCompletion uri position]
    match resp with
    | .ok raw =>
        { result := .ok (normalizeCompletionResult raw), state := s'
          frames := frames, reads := reads }
    | .error t =>
        { result := .error (wrapThrown context t)
          state := s', frames := frames, reads := reads }

/-- Definition `getDiagnostics` from src/lsp/client.ts: a pure local read of the
diagnostics cache, empty when no push has arrived for the URI of the file. -/
def getDiagnostics (resolve : String → String) (s : ClientState)
    (filePath : String) : List Diagnostic :=
  let uri := pathToUri resolve filePath
  (mapGet s.diagnostics uri).getD []

/-- The `ErrorContext` literal used by `renameSymbol`. -/
def renameSymbolContext (filePath : String) (position : Position) :
    ErrorContext :=
  { operation := "renameSymbol", file := some filePath
    position := some position, symbolName := none }

/-- Definition `renameSymbol` from src/lsp/client.ts: the inner try/catch converts a
method-not-supported protocol error into `null`; every other thrown error
escapes to `withErrorHandling` and is wrapped with the context. -/
def renameSymbol (resolve : String → String) (fs : String → String)
    (s : ClientState) (filePath : String) (position : Position)
    (newName : String) (resp : Except Thrown (Option WorkspaceEdit)) :
    OpResult (Option WorkspaceEdit) :=
  let context := renameSymbolContext filePath position
  if s.connection = false then
    { result := .error (wrapThrown context
        (.errorObj "LSP client not initialized"))
      state := s, frames := [], reads := [] }
  else if supportsFeature s "rename" = false then
    { result := .error (wrapThrown context
        (.errorObj "Rename not supported"))
      state := s, frames := [], reads := [] }
  else
    let (uri, s', frames, reads) := ensureDocumentOpen resolve fs s filePath
    let frames := frames ++ [.reqRename uri position newName]
    match resp with
    | .ok r =>
        { result := .ok r, state := s', frames := frames, reads := reads }
    | .error t =>
        if isNotSupportedError t then
          { result := .ok none, state := s', frames := frames
            reads := reads }
        else
          { result := .error (wrapThrown context t)
            state := s', frames := frames, reads := reads }

/-- Definition `stop` from src/lsp/client.ts: best-effort `shutdown` request and
`exit` notification (the `exit` is skipped when `shutdown` throws, and both
are skipped without a connection), kill of the server process, then a full
clear of every in-memory field.  Never throws. -/
def stop (s : ClientState) (shutdownResp : Except Thrown Unit) :
    ClientState × List Frame × Bool :=
  let frames :=
    if s.connection then
      match shutdownResp with
      | .ok _ => [Frame.reqShutdown, Frame.notifExit]
      | .error _ => [Frame.reqShutdown]
    else []
  let killed := s.serverProcess
  ({ connection := false
     serverProcess := false
     serverCapabilities := none
     initialized := false
     documentVersions := []
     openDocuments := []
     diagnostics := [] },
    frames, killed)

/-! ## Input parsing (src/utils/pathUtils.ts, `extractPathAndPosition`)

The source matches the regular expression
`^(.*?)(?::(\d+)(?::(\d+))?)?$` with a lazy path group: the path is the
shortest prefix whose remainder is exactly `:line` or `:line:column` with
nonempty digit runs; when no such split exists the whole input is the path
and the position is absent.  `parseInt(d, 10) - 1` converts the one-based
components to zero-based. -/

/-- Split a character list at every occurrence of a separator (the
separators are dropped; like `String.prototype.split`). -/
def splitOnChar (sep : Char) : List Char → List (List Char)
  | [] => [[]]
  | c :: cs =>
      match splitOnChar sep cs with
      | [] => if c = sep then [[], []] else [[c]]
      | h :: t => if c = sep then [] :: h :: t else (c :: h) :: t

/-- Does a suffix match `:(\d+)(?::(\d+))?` exactly?  Returns the digit
captures. -/
def parsePosSuffix (rest : String) : Option (String × Option String) :=
  match rest.data with
  | ':' :: cs =>
      match (splitOnChar ':' cs).map String.mk with
      | [a] =>
          if a ≠ "" ∧ a.data.all Char.isDigit then some (a, none) else none
      | [a, b] =>
          if a ≠ "" ∧ a.data.all Char.isDigit ∧ b ≠ "" ∧
              b.data.all Char.isDigit then
            some (a, some b)
          else none
      | _ => none
  | _ => none

/-- Definition `parseInt(d, 10)` on a nonempty all-digit capture. -/
def jsParseIntDigits (s : String) : Int :=
  (s.data.foldl (fun acc c => acc * 10 + (c.toNat - '0'.toNat)) 0 : Nat)

/-- Definition `extractPathAndPosition` from src/utils/pathUtils.ts. -/
def extractPathAndPosition (input : String) : String × Option Position :=
  match (List.range input.data.length).find?
      (fun i => (parsePosSuffix (String.mk (input.data.drop i))).isSome) with
  | some i =>
      match parsePosSuffix (String.mk (input.data.drop i)) with
      | some (a, b) =>
          (String.mk (input.data.take i),
            some { line := jsParseIntDigits a - 1
                   character :=
                     match b with
                     | some bb => jsParseIntDigits bb - 1
                     | none => 0 })
      | none => (input, none)
  | none => (input, none)

/-- Function `join(root, p)` from `node:path` for the cases the tools exercise (the
dot-segment normalization node performs is irrelevant here). -/
def joinPath (root p : String) : String :=
  if p = "" then root else root ++ "/" ++ p

/-! ## Tool responses (src/utils/errorHandler.ts `createErrorResponse`,
lspTools.ts) -/

structure ToolContent where
  type : String
  text : String
deriving Repr, DecidableEq

structure ToolResponse (σ : Type) where
  content : List ToolContent
  structuredContent : Option σ
  isError : Bool
deriving Repr

/-- Definition `createErrorResponse` from src/utils/errorHandler.ts. -/
def createErrorResponse {σ : Type} (error : Thrown)
    (context : Option ErrorContext) : ToolResponse σ :=
  { content := [{ type := "text", text := "Error: " ++ formatError error context }]
    structuredContent := none
    isError := true }

structure HoverStructured where
  hover : Option Hover
  file : String
  position : Position
deriving Repr, DecidableEq

structure CompletionStructured where
  completions : List CompletionItem
  file : String
  position : Position
deriving Repr, DecidableEq

/-! ## Hover text cleanup (lspTools.ts)

The two global multiline regex replaces
`/^\x60\x60\x60[\w]*\n?/gm` and `/\n?\x60\x60\x60$/gm` are realized
line-by-line: matches of the first pattern sit at line starts and may
swallow the following separator; matches of the second sit at line ends and
may swallow the preceding separator. -/

def isWordChar (c : Char) : Bool :=
  c.isAlphanum || c = '_'

/-- Effect of the opening-fence replace on one line: `none` when the match
swallowed the whole line together with its following newline. -/
def stripOpenFenceLine (l : String) : Option String :=
  if jsStartsWith l "```" then
    let r := String.mk ((l.data.drop 3).dropWhile isWordChar)
    if r = "" then none else some r
  else some l

/-- Rejoin after the opening-fence replace: a removed line drops the
separator that followed it. -/
def rejoinOpen : List (Option String) → String
  | [] => ""
  | [o] => o.getD ""
  | some l :: o :: rest => l ++ "\n" ++ rejoinOpen (o :: rest)
  | none :: o :: rest => rejoinOpen (o :: rest)

/-- Effect of the closing-fence replace on the tail of one line. -/
def stripCloseFenceLine (l : String) : String :=
  if jsEndsWith l "```" then String.mk (l.data.take (l.data.length - 3))
  else l

/-- Rejoin after the closing-fence replace, for every line after the
first: a line that is exactly a fence is swallowed together with the
separator that preceded it. -/
def rejoinCloseRest : List String → String
  | [] => ""
  | l :: rest =>
      (if l = "```" then "" else "\n" ++ stripCloseFenceLine l) ++
        rejoinCloseRest rest

/-- Rejoin after the closing-fence replace. -/
def rejoinClose : List String → String
  | [] => ""
  | l :: rest =>
      (if l = "```" then "" else stripCloseFenceLine l) ++
        rejoinCloseRest rest

/-- The code-block-marker cleanup applied to hover text in lspTools.ts. -/
def cleanHoverText (s : String) : String :=
  let s1 := rejoinOpen ((s.splitOn "\n").map stripOpenFenceLine)
  (rejoinClose (s1.splitOn "\n")).trim

/-- The truthiness of `hover.contents` as tested by `if (hover?.contents)`:
only an empty bare string is falsy. -/
def HoverContents.truthy : HoverContents → Bool
  | .one (.str s) => s ≠ ""
  | _ => true

/-- The string/array/`{value}` flattening of hover contents in
lspTools.ts. -/
def hoverTextOf : HoverContents → String
  | .many ps =>
      String.intercalate "\n"
        (ps.map fun p =>
          match p with
          | .str s => s
          | .marked v => v)
  | .one (.str s) => s
  | .one (.marked v) => v

/-! ## Tool facade (lspTools.ts) -/

/-- Definition `lspGetHover` from lspTools.ts: initialization gate, position parsing,
the client call, and markdown rendering; every thrown error lands in
`createErrorResponse` with the own context of the tool. -/
def lspGetHover (resolve : String → String) (fs : String → String)
    (s : ClientState) (root input : String)
    (resp : Except Thrown (Option Hover)) :
    ToolResponse HoverStructured × ClientState × List Frame × List String :=
  let ctx : ErrorContext :=
    { operation := "lsp_get_hover", file := some input
      position := none, symbolName := none }
  if isInitialized s = false then
    (createErrorResponse (.errorObj "LSP client is not initialized")
      (some ctx), s, [], [])
  else
    match extractPathAndPosition input with
    | (_, none) =>
        (createErrorResponse
          (.errorObj "Position is required. Use format: file.ts:line:column")
          (some ctx), s, [], [])
    | (relativePath, some position) =>
        let filePath := joinPath root relativePath
        let r := getHover resolve fs s filePath position resp
        match r.result with
        | .error e =>
            (createErrorResponse (.errorObj e.message) (some ctx),
              r.state, r.frames, r.reads)
        | .ok hover =>
            let header := "# Hover Information\n\n**File**: " ++
              relativePath ++ "\n**Position**: " ++
              toString (position.line + 1) ++ ":" ++
              toString (position.character + 1) ++ "\n\n"
            let text :=
              match hover with
              | some h =>
                  if h.contents.truthy then
                    header ++ "```typescript\n" ++
                      cleanHoverText (hoverTextOf h.contents) ++ "\n```"
                  else
                    header ++
                      "No hover information available at this position."
              | none =>
                  header ++
                    "No hover information available at this position."
            ({ content := [{ type := "text", text := text }]
               structuredContent := some
                 { hover := hover, file := relativePath
                   position := position }
               isError := false },
              r.state, r.frames, r.reads)

/-- Definition `getCompletionKindName` from lspTools.ts. -/
def getCompletionKindName (kind : Int) : String :=
  let kindNames : List (Int × String) :=
    [(1, "Text"), (2, "Method"), (3, "Function"), (4, "Constructor"),
     (5, "Field"), (6, "Variable"), (7, "Class"), (8, "Interface"),
     (9, "Module"), (10, "Property"), (11, "Unit"), (12, "Value"),
     (13, "Enum"), (14, "Keyword"), (15, "Snippet"), (16, "Color"),
     (17, "File"), (18, "Reference"), (19, "Folder"), (20, "EnumMember"),
     (21, "Constant"), (22, "Struct"), (23, "Event"), (24, "Operator"),
     (25, "TypeParameter")]
  (((kindNames.find? (fun p => p.1 = kind)).map Prod.snd).getD "Unknown")

/-- Definition `completion.kind || 1`: absent or zero falls back to 1. -/
def kindOrOne (kind : Option Int) : Int :=
  match kind with
  | some k => if k = 0 then 1 else k
  | none => 1

/-- Definition `lspGetCompletion` from lspTools.ts: initialization gate, position
parsing, the client call, truncation of the normalized array to
`maxResults`, and markdown rendering. -/
def lspGetCompletion (resolve : String → String) (fs : String → String)
    (s : ClientState) (root input : String) (maxResults : Nat)
    (resp : Except Thrown CompletionResult) :
    ToolResponse CompletionStructured × ClientState × List Frame ×
      List String :=
  let ctx : ErrorContext :=
    { operation := "lsp_get_completion", file := some input
      position := none, symbolName := none }
  if isInitialized s = false then
    (createErrorResponse (.errorObj "LSP client is not initialized")
      (some ctx), s, [], [])
  else
    match extractPathAndPosition input with
    | (_, none) =>
        (createErrorResponse
          (.errorObj "Position is required. Use format: file.ts:line:column")
          (some ctx), s, [], [])
    | (relativePath, some position) =>
        let filePath := joinPath root relativePath
        let r := getCompletion resolve fs s filePath position resp
        match r.result with
        | .error e =>
            (createErrorResponse (.errorObj e.message) (some ctx),
              r.state, r.frames, r.reads)
        | .ok allCompletions =>
            let completions := allCompletions.take maxResults
            let header := "# Code Completion\n\n**File**: " ++
              relativePath ++ "\n**Position**: " ++
              toString (position.line + 1) ++ ":" ++
              toString (position.character + 1) ++ "\n\n"
            let text :=
              if completions.length > 0 then
                let completionList := String.intercalate "\n"
                  (completions.enum.map fun ic =>
                    toString (ic.1 + 1) ++ ". **" ++ ic.2.label ++ "** (" ++
                      getCompletionKindName (kindOrOne ic.2.kind) ++ ")" ++
                      (match ic.2.detail with
                       | some d => " - " ++ d
                       | none => ""))
                header ++ "Found " ++ toString completions.length ++
                  " completion(s)" ++
                  (if allCompletions.length > maxResults then
                    " (showing first " ++ toString maxResults ++ " of " ++
                      toString allCompletions.length ++ ")"
                  else "") ++ ":\n\n" ++ completionList
              else
                header ++ "No completions available at this position."
            ({ content := [{ type := "text", text := text }]
               structuredContent := some
                 { completions := completions, file := relativePath
                   position := position }
               isError := false },
              r.state, r.frames, r.reads)

/-! ## Helper lemmas about the JS string and map primitives -/

theorem jsStartsWith_prepend (pre p : String) :
    jsStartsWith (pre ++ p) pre = true := by
  rw [jsStartsWith, String.data_append]
  exact List.isPrefixOf_iff_prefix.mpr (List.prefix_append _ _)

theorem jsSlice_file_prepend (p : String) :
    jsSlice ("file://" ++ p) 7 = p := by
  rw [jsSlice, String.data_append]
  have h7 : ("file://" : String).data.length = 7 := rfl
  rw [← h7, List.drop_left]

theorem jsStartsWith_file_eq_false_of_slash (p : String)
    (h : jsStartsWith p "/" = true) : jsStartsWith p "file://" = false := by
  rw [jsStartsWith] at h ⊢
  have hpre : ['/'] <+: p.data := List.isPrefixOf_iff_prefix.mp h
  obtain ⟨t, ht⟩ := hpre
  rw [← ht]
  rfl

theorem mapGet_cons {α : Type} (a : String × α) (m : List (String × α))
    (k : String) :
    mapGet (a :: m) k = if a.1 = k then some a.2 else mapGet m k := by
  by_cases h : a.1 = k <;> simp [mapGet, List.find?_cons, h]

theorem mapGet_replace {α : Type} (m : List (String × α)) (k k' : String)
    (v : α) :
    mapGet (m.map (fun p => if p.1 = k then (k, v) else p)) k' =
      if k' = k then (if (mapGet m k).isSome then some v else none)
      else mapGet m k' := by
  induction m with
  | nil => by_cases h : k' = k <;> simp [mapGet, h]
  | cons a t ih =>
    simp only [List.map_cons]
    by_cases hak : a.1 = k
    · by_cases hk : k' = k
      · subst hk
        simp [hak, mapGet_cons, ih]
      · have h1 : ¬ k = k' := fun h => hk h.symm
        have h2 : ¬ a.1 = k' := fun h => h1 (hak.symm.trans h)
        simp [hak, hk, h1, h2, mapGet_cons, ih]
    · by_cases hk : k' = k
      · subst hk
        simp [hak, mapGet_cons, ih]
      · by_cases ha' : a.1 = k'
        · simp [hak, hk, ha', mapGet_cons, ih]
        · simp [hak, hk, ha', mapGet_cons, ih]

theorem mapGet_append_single {α : Type} (m : List (String × α))
    (k k' : String) (v : α) :
    mapGet (m ++ [(k, v)]) k' =
      if (mapGet m k').isSome then mapGet m k'
      else if k' = k then some v else none := by
  induction m with
  | nil =>
    by_cases h : k = k' <;>
      simp [mapGet_cons, mapGet, h, eq_comm]
  | cons a t ih =>
    by_cases ha : a.1 = k'
    · simp [List.cons_append, mapGet_cons, ha]
    · simp [List.cons_append, mapGet_cons, ha, ih]

theorem mapGet_mapSet {α : Type} (m : List (String × α)) (k k' : String)
    (v : α) :
    mapGet (mapSet m k v) k' = if k' = k then some v else mapGet m k' := by
  rw [mapSet]
  by_cases hf : (m.find? (fun p => p.1 = k)).isSome
  · rw [if_pos hf, mapGet_replace]
    have hs : (mapGet m k).isSome = true := by
      rw [mapGet]
      cases hfind : m.find? (fun p => p.1 = k) with
      | none => rw [hfind] at hf; simp at hf
      | some a => rfl
    rw [hs]
    simp
  · rw [if_neg hf, mapGet_append_single]
    have hnone : mapGet m k = none := by
      rw [mapGet]
      cases hfind : m.find? (fun p => p.1 = k) with
      | none => rfl
      | some a => rw [hfind] at hf; simp at hf
    by_cases hk : k' = k
    · subst hk
      rw [hnone]
      simp
    · rw [if_neg hk]
      cases hmk : mapGet m k' <;> simp [hmk, hk]

theorem mapGet_mapDelete {α : Type} (m : List (String × α)) (k k' : String) :
    mapGet (mapDelete m k) k' = if k' = k then none else mapGet m k' := by
  induction m with
  | nil => by_cases h : k' = k <;> simp [mapDelete, mapGet, h]
  | cons a t ih =>
    rw [mapDelete, List.filter_cons]
    rw [mapDelete] at ih
    by_cases hak : a.1 = k
    · have hd : (decide ¬a.1 = k) = false := by simp [hak]
      rw [hd, if_neg (by simp), ih, mapGet_cons]
      by_cases hk : k' = k
      · simp [hk]
      · have h2 : ¬ a.1 = k' := fun h => hk (hak.symm.trans h).symm
        simp [hk, h2]
    · have hd : (decide ¬a.1 = k) = true := by simp [hak]
      rw [hd, if_pos rfl, mapGet_cons, mapGet_cons, ih]
      by_cases hk : k' = k
      · subst hk
        rw [if_pos rfl, if_neg hak, if_pos rfl]
      · by_cases ha' : a.1 = k'
        · rw [if_pos ha', if_pos ha', if_neg hk]
        · rw [if_neg ha', if_neg ha']

theorem mem_setAdd (s : List String) (k x : String) :
    x ∈ setAdd s k ↔ x ∈ s ∨ x = k := by
  by_cases h : k ∈ s
  · rw [setAdd, if_pos h]
    exact ⟨Or.inl, fun hx => hx.elim id (fun e => e ▸ h)⟩
  · rw [setAdd, if_neg h]
    simp [List.mem_append]

theorem mem_setDelete (s : List String) (k x : String) :
    x ∈ setDelete s k ↔ x ∈ s ∧ x ≠ k := by
  simp [setDelete, List.mem_filter]

theorem ensureDocumentOpen_eq_of_fresh (resolve : String → String)
    (fs : String → String) (s : ClientState) (filePath : String)
    (hc : s.connection = true)
    (hnew : pathToUri resolve filePath ∉ s.openDocuments) :
    ensureDocumentOpen resolve fs s filePath =
      (pathToUri resolve filePath,
        { s with
            documentVersions := mapSet s.documentVersions
              (pathToUri resolve filePath) 1
            openDocuments := setAdd s.openDocuments
              (pathToUri resolve filePath) },
        [.notifDidOpen (pathToUri resolve filePath)
          (getLanguageId (uriToPath (pathToUri resolve filePath))) 1
          (fs filePath)],
        [filePath]) := by
  rw [ensureDocumentOpen]
  simp only [if_neg hnew]
  rw [openDocument, if_neg (by simp [hc, hnew])]
  rfl

theorem ensureDocumentOpen_eq_of_open (resolve : String → String)
    (fs : String → String) (s : ClientState) (filePath : String)
    (hmem : pathToUri resolve filePath ∈ s.openDocuments) :
    ensureDocumentOpen resolve fs s filePath =
      (pathToUri resolve filePath, s, [], []) := by
  rw [ensureDocumentOpen]
  simp only [if_pos hmem]

/-! ## Concrete data used by the witnesses -/

/-- A capability snapshot with a mix of truthy and falsy provider
fields. -/
def capsAll : ServerCapabilities :=
  { hoverProvider := .objVal
    completionProvider := .objVal
    definitionProvider := .boolVal true
    referencesProvider := .boolVal true
    renameProvider := .objVal
    documentSymbolProvider := .objVal
    workspaceSymbolProvider := .undef
    codeActionProvider := .boolVal false
    documentFormattingProvider := .boolVal true
    documentRangeFormattingProvider := .undef
    signatureHelpProvider := .objVal }

/-- A ready client with the `capsAll` snapshot and empty registries. -/
def stateReady : ClientState :=
  { connection := true
    serverProcess := true
    serverCapabilities := some capsAll
    initialized := true
    documentVersions := []
    openDocuments := []
    diagnostics := [] }

/-- A client that never completed the handshake. -/
def stateNoCaps : ClientState :=
  { connection := true
    serverProcess := true
    serverCapabilities := none
    initialized := false
    documentVersions := []
    openDocuments := []
    diagnostics := [] }

/-- A sample diagnostic record. -/
def diagX : Diagnostic :=
  { range := { start := { line := 0, character := 0 }
               stop := { line := 0, character := 5 } }
    message := "Type error", severity := some 1, source := some "ts" }

/-! ## Claim theorems -/

/-- C10: `pathToUri` is the identity on any string that already starts
with `file://` (hence it is idempotent on every input), and for every
absolute path already in resolved form, `uriToPath` inverts it. -/
theorem pathToUri_uriToPath_roundtrip (resolve : String → String)
    (p : String) (hres : resolve p = p)
    (habs : jsStartsWith p "/" = true) :
    (∀ u, jsStartsWith u "file://" = true → pathToUri resolve u = u) ∧
    (∀ q, pathToUri resolve (pathToUri resolve q) = pathToUri resolve q) ∧
    uriToPath (pathToUri resolve p) = p := by
  have hid : ∀ u, jsStartsWith u "file://" = true →
      pathToUri resolve u = u := by
    intro u hu
    rw [pathToUri, normalizeUri, if_pos hu]
  refine ⟨hid, ?_, ?_⟩
  · intro q
    by_cases hq : jsStartsWith q "file://" = true
    · rw [hid q hq]
      exact hid q hq
    · have h1 : pathToUri resolve q = "file://" ++ resolve q := by
        rw [pathToUri, normalizeUri, if_neg hq]
      rw [h1]
      exact hid _ (jsStartsWith_prepend _ _)
  · have hnf : ¬ jsStartsWith p "file://" = true := by
      rw [jsStartsWith_file_eq_false_of_slash p habs]
      simp
    rw [pathToUri, normalizeUri, if_neg hnf, hres, uriToPath,
      if_pos (jsStartsWith_prepend _ _), jsSlice_file_prepend]

/-- Witness for C10 at `resolve = id`, `p = "/tmp/a.ts"` and the already
prefixed string `file:///x`. -/
theorem pathToUri_uriToPath_roundtrip_witness :
    uriToPath (pathToUri id "/tmp/a.ts") = "/tmp/a.ts" ∧
    pathToUri id "file:///x" = "file:///x" :=
  ⟨(pathToUri_uriToPath_roundtrip id "/tmp/a.ts" rfl (by decide)).2.2,
   (pathToUri_uriToPath_roundtrip id "/tmp/a.ts" rfl (by decide)).1
     "file:///x" (by decide)⟩

/-- C9: one `stop` leaves the client uninitialized with connection,
process handle and capability snapshot cleared and all three registries
empty; a second `stop` sends no frame, kills nothing, raises nothing (it
is a total function) and returns the identical state. -/
theorem stop_idempotent_clears (s : ClientState)
    (o1 o2 : Except Thrown Unit) :
    ((stop s o1).1.initialized = false ∧
     (stop s o1).1.connection = false ∧
     (stop s o1).1.serverProcess = false ∧
     (stop s o1).1.serverCapabilities = none ∧
     (stop s o1).1.openDocuments = [] ∧
     (stop s o1).1.documentVersions = [] ∧
     (stop s o1).1.diagnostics = []) ∧
    stop (stop s o1).1 o2 = ((stop s o1).1, [], false) :=
  ⟨⟨rfl, rfl, rfl, rfl, rfl, rfl, rfl⟩, rfl⟩

/-- C5: `supportsFeature` returns false for every feature name when no
capability snapshot was captured; with a snapshot, each recognized name
reflects the truthiness of its provider field, diagnostics is always
supported, and every unrecognized name yields false. -/
theorem supportsFeature_reflects_capabilities (s : ClientState) :
    (s.serverCapabilities = none → ∀ f, supportsFeature s f = false) ∧
    (∀ caps, s.serverCapabilities = some caps →
      (supportsFeature s "hover" = caps.hoverProvider.truthy ∧
       supportsFeature s "completion" = caps.completionProvider.truthy ∧
       supportsFeature s "definition" = caps.definitionProvider.truthy ∧
       supportsFeature s "references" = caps.referencesProvider.truthy ∧
       supportsFeature s "rename" = caps.renameProvider.truthy ∧
       supportsFeature s "documentSymbol" =
         caps.documentSymbolProvider.truthy ∧
       supportsFeature s "workspaceSymbol" =
         caps.workspaceSymbolProvider.truthy ∧
       supportsFeature s "codeAction" = caps.codeActionProvider.truthy ∧
       supportsFeature s "formatting" =
         caps.documentFormattingProvider.truthy ∧
       supportsFeature s "rangeFormatting" =
         caps.documentRangeFormattingProvider.truthy ∧
       supportsFeature s "signatureHelp" =
         caps.signatureHelpProvider.truthy ∧
       supportsFeature s "diagnostics" = true) ∧
      ∀ f, f ∉ (["hover", "completion", "definition", "references",
          "rename", "documentSymbol", "workspaceSymbol", "codeAction",
          "formatting", "rangeFormatting", "signatureHelp",
          "diagnostics"] : List String) →
        supportsFeature s f = false) := by
  obtain ⟨conn, proc, scaps, init, dv, od, dg⟩ := s
  constructor
  · intro h f
    simp only at h
    rw [supportsFeature, h]
  · intro caps hcaps
    simp only at hcaps
    subst hcaps
    refine ⟨⟨rfl, rfl, rfl, rfl, rfl, rfl, rfl, rfl, rfl, rfl, rfl, rfl⟩,
      ?_⟩
    intro f hf
    simp only [List.mem_cons, not_or] at hf
    obtain ⟨h1, h2, h3, h4, h5, h6, h7, h8, h9, h10, h11, h12, -⟩ := hf
    simp only [supportsFeature]
    simp [h1, h2, h3, h4, h5, h6, h7, h8, h9, h10, h11, h12]

/-- Witness for C5 at the `capsAll` snapshot, an unrecognized name, and a
client without a snapshot. -/
theorem supportsFeature_reflects_capabilities_witness :
    supportsFeature stateReady "hover" = true ∧
    supportsFeature stateReady "workspaceSymbol" = false ∧
    supportsFeature stateReady "bogus" = false ∧
    supportsFeature stateNoCaps "hover" = false :=
  ⟨(((supportsFeature_reflects_capabilities stateReady).2 capsAll
      rfl).1.1).trans rfl,
   (((supportsFeature_reflects_capabilities stateReady).2 capsAll
      rfl).1.2.2.2.2.2.2.1).trans rfl,
   ((supportsFeature_reflects_capabilities stateReady).2 capsAll
      rfl).2 "bogus" (by decide),
   (supportsFeature_reflects_capabilities stateNoCaps).1 rfl "hover"⟩

/-- C4: `getDiagnostics` is a pure local read: empty for a file with no
push received; after a push for X carrying D, the lookup for X returns
exactly D and the lookup for every other file is unchanged. -/
theorem getDiagnostics_cache_semantics (resolve : String → String)
    (s : ClientState) :
    (∀ f, mapGet s.diagnostics (pathToUri resolve f) = none →
       getDiagnostics resolve s f = []) ∧
    (∀ u D f, pathToUri resolve f = u →
       getDiagnostics resolve (handlePublishDiagnostics s u D) f = D) ∧
    (∀ u D g, pathToUri resolve g ≠ u →
       getDiagnostics resolve (handlePublishDiagnostics s u D) g =
         getDiagnostics resolve s g) := by
  refine ⟨?_, ?_, ?_⟩
  · intro f h
    simp [getDiagnostics, h]
  · intro u D f h
    simp [getDiagnostics, handlePublishDiagnostics, mapGet_mapSet, h]
  · intro u D g h
    simp [getDiagnostics, handlePublishDiagnostics, mapGet_mapSet, h]

/-- Witness for C4: the cache starts empty, receives a push for
`file:///w/x.ts`, and a lookup for `/w/y.ts` is unaffected. -/
theorem getDiagnostics_cache_semantics_witness :
    getDiagnostics id stateReady "/w/x.ts" = [] ∧
    getDiagnostics id
      (handlePublishDiagnostics stateReady "file:///w/x.ts" [diagX])
      "/w/x.ts" = [diagX] ∧
    getDiagnostics id
      (handlePublishDiagnostics stateReady "file:///w/x.ts" [diagX])
      "/w/y.ts" = getDiagnostics id stateReady "/w/y.ts" :=
  ⟨(getDiagnostics_cache_semantics id stateReady).1 "/w/x.ts" rfl,
   (getDiagnostics_cache_semantics id stateReady).2.1
     "file:///w/x.ts" [diagX] "/w/x.ts" rfl,
   (getDiagnostics_cache_semantics id stateReady).2.2
     "file:///w/x.ts" [diagX] "/w/y.ts" (by decide)⟩

/-- C2: the first `ensureDocumentOpen` on an untracked path reads the file
once, sends exactly one didOpen notification carrying version 1 and that
content, and records the document as open with version 1; the second call
on the same path sends no notification, reads no file, and returns the
registry state unchanged. -/
theorem ensureDocumentOpen_idempotent (resolve : String → String)
    (fs : String → String) (s : ClientState) (filePath : String)
    (hc : s.connection = true)
    (hnew : pathToUri resolve filePath ∉ s.openDocuments) :
    (ensureDocumentOpen resolve fs s filePath).1 =
      pathToUri resolve filePath ∧
    (ensureDocumentOpen resolve fs s filePath).2.2.1 =
      [.notifDidOpen (pathToUri resolve filePath)
        (getLanguageId (uriToPath (pathToUri resolve filePath))) 1
        (fs filePath)] ∧
    (ensureDocumentOpen resolve fs s filePath).2.2.2 = [filePath] ∧
    pathToUri resolve filePath ∈
      (ensureDocumentOpen resolve fs s filePath).2.1.openDocuments ∧
    mapGet (ensureDocumentOpen resolve fs s filePath).2.1.documentVersions
      (pathToUri resolve filePath) = some 1 ∧
    ensureDocumentOpen resolve fs
        (ensureDocumentOpen resolve fs s filePath).2.1 filePath =
      (pathToUri resolve filePath,
        (ensureDocumentOpen resolve fs s filePath).2.1, [], []) := by
  have h1 := ensureDocumentOpen_eq_of_fresh resolve fs s filePath hc hnew
  rw [h1]
  have hmem : pathToUri resolve filePath ∈
      setAdd s.openDocuments (pathToUri resolve filePath) :=
    (mem_setAdd _ _ _).mpr (Or.inr rfl)
  refine ⟨rfl, rfl, rfl, hmem, ?_, ?_⟩
  · show mapGet (mapSet s.documentVersions (pathToUri resolve filePath) 1)
      (pathToUri resolve filePath) = some 1
    rw [mapGet_mapSet, if_pos rfl]
  · exact ensureDocumentOpen_eq_of_open resolve fs _ filePath hmem

/-- Witness for C2: opening `/w/a.ts` on a fresh ready client, then
calling again. -/
theorem ensureDocumentOpen_idempotent_witness :
    (ensureDocumentOpen id (fun _ => "const x = 1") stateReady
        "/w/a.ts").2.2.1 =
      [.notifDidOpen "file:///w/a.ts" "typescript" 1 "const x = 1"] ∧
    ensureDocumentOpen id (fun _ => "const x = 1")
        (ensureDocumentOpen id (fun _ => "const x = 1") stateReady
          "/w/a.ts").2.1 "/w/a.ts" =
      ("file:///w/a.ts",
        (ensureDocumentOpen id (fun _ => "const x = 1") stateReady
          "/w/a.ts").2.1, [], []) := by
  have h := ensureDocumentOpen_idempotent id (fun _ => "const x = 1")
    stateReady "/w/a.ts" rfl (by decide)
  exact ⟨h.2.1.trans (by decide), h.2.2.2.2.2.trans (by decide)⟩

/-- C3: closing an open document removes the open-document entry, the
version entry and the diagnostics entry in the same operation, so a
subsequent diagnostics lookup for that file is empty, and sends the
didClose notification. -/
theorem closeDocument_drops_doc_and_diagnostics (s : ClientState)
    (uri : String) (hc : s.connection = true)
    (ho : uri ∈ s.openDocuments) :
    uri ∉ (closeDocument s uri).1.openDocuments ∧
    mapGet (closeDocument s uri).1.documentVersions uri = none ∧
    mapGet (closeDocument s uri).1.diagnostics uri = none ∧
    (∀ resolve f, pathToUri resolve f = uri →
       getDiagnostics resolve (closeDocument s uri).1 f = []) ∧
    (closeDocument s uri).2 = [.notifDidClose uri] := by
  have hcond : ¬ (s.connection = false ∨ uri ∉ s.openDocuments) := by
    simp [hc, ho]
  have h1 : (closeDocument s uri).1 =
      { s with
          openDocuments := setDelete s.openDocuments uri
          documentVersions := mapDelete s.documentVersions uri
          diagnostics := mapDelete s.diagnostics uri } := by
    rw [closeDocument, if_neg hcond]
  have h2 : (closeDocument s uri).2 = [.notifDidClose uri] := by
    rw [closeDocument, if_neg hcond]
  refine ⟨?_, ?_, ?_, ?_, h2⟩
  · rw [h1]
    intro hmem
    exact ((mem_setDelete _ _ _).mp hmem).2 rfl
  · rw [h1]
    show mapGet (mapDelete s.documentVersions uri) uri = none
    rw [mapGet_mapDelete, if_pos rfl]
  · rw [h1]
    show mapGet (mapDelete s.diagnostics uri) uri = none
    rw [mapGet_mapDelete, if_pos rfl]
  · intro resolve f hpf
    rw [h1, getDiagnostics]
    show (mapGet (mapDelete s.diagnostics uri)
      (pathToUri resolve f)).getD [] = []
    rw [hpf, mapGet_mapDelete, if_pos rfl]
    rfl

/-- A ready client that has `file:///w/x.ts` open with version 1 and a
cached diagnostic for it. -/
def stateWithDoc : ClientState :=
  { stateReady with
      openDocuments := ["file:///w/x.ts"]
      documentVersions := [("file:///w/x.ts", 1)]
      diagnostics := [("file:///w/x.ts", [diagX])] }

/-- Witness for C3 at `stateWithDoc`. -/
theorem closeDocument_drops_doc_and_diagnostics_witness :
    "file:///w/x.ts" ∉
      (closeDocument stateWithDoc "file:///w/x.ts").1.openDocuments ∧
    getDiagnostics id (closeDocument stateWithDoc "file:///w/x.ts").1
      "/w/x.ts" = [] ∧
    mapGet (closeDocument stateWithDoc "file:///w/x.ts").1.documentVersions
      "file:///w/x.ts" = none :=
  ⟨(closeDocument_drops_doc_and_diagnostics stateWithDoc "file:///w/x.ts"
      rfl (by decide)).1,
   (closeDocument_drops_doc_and_diagnostics stateWithDoc "file:///w/x.ts"
      rfl (by decide)).2.2.2.1 id "/w/x.ts" rfl,
   (closeDocument_drops_doc_and_diagnostics stateWithDoc "file:///w/x.ts"
      rfl (by decide)).2.1⟩

/-- A sample location record. -/
def locA : Location :=
  { uri := "file:///w/a.ts"
    range := { start := { line := 5, character := 10 }
               stop := { line := 5, character := 20 } } }

/-- C1: with a connection and the definition capability, `getDefinition`
returns an array for every raw result shape: the empty array for null, a
one-element array for a single location object, and an array unchanged. -/
theorem getDefinition_normalizes (resolve : String → String)
    (fs : String → String) (s : ClientState) (filePath : String)
    (pos : Position) (hc : s.connection = true)
    (hf : supportsFeature s "definition" = true) :
    (getDefinition resolve fs s filePath pos
      (.ok .nullResult)).result = .ok [] ∧
    (∀ loc, (getDefinition resolve fs s filePath pos
      (.ok (.single loc))).result = .ok [loc]) ∧
    (∀ locs, (getDefinition resolve fs s filePath pos
      (.ok (.locations locs))).result = .ok locs) := by
  have hgen : ∀ raw, (getDefinition resolve fs s filePath pos
      (.ok raw)).result = .ok (normalizeDefinitionResult raw) := by
    intro raw
    rcases he : ensureDocumentOpen resolve fs s filePath with
      ⟨uri, s', frames, reads⟩
    simp only [getDefinition, hc, hf, he]
    simp
  exact ⟨hgen .nullResult, fun loc => hgen (.single loc),
    fun locs => hgen (.locations locs)⟩

/-- Witness for C1 at a ready client: a single location and a null
result. -/
theorem getDefinition_normalizes_witness :
    (getDefinition id (fun _ => "") stateReady "/w/a.ts"
      { line := 5, character := 10 } (.ok (.single locA))).result =
      .ok [locA] ∧
    (getDefinition id (fun _ => "") stateReady "/w/a.ts"
      { line := 5, character := 10 } (.ok .nullResult)).result = .ok [] :=
  ⟨(getDefinition_normalizes id (fun _ => "") stateReady "/w/a.ts"
      { line := 5, character := 10 } rfl rfl).2.1 locA,
   (getDefinition_normalizes id (fun _ => "") stateReady "/w/a.ts"
      { line := 5, character := 10 } rfl rfl).1⟩

/-- C7: with the rename capability advertised, a server rejection whose
message marks the method unsupported resolves to the absence value `none`
instead of raising; every other rejection is propagated wrapped with the
rename context. -/
theorem renameSymbol_unsupported_absence (resolve : String → String)
    (fs : String → String) (s : ClientState) (filePath : String)
    (pos : Position) (newName : String) (t : Thrown)
    (hc : s.connection = true)
    (hf : supportsFeature s "rename" = true) :
    (isNotSupportedError t = true →
      (renameSymbol resolve fs s filePath pos newName
        (.error t)).result = .ok none) ∧
    (isNotSupportedError t = false →
      (renameSymbol resolve fs s filePath pos newName
        (.error t)).result =
        .error (wrapThrown (renameSymbolContext filePath pos) t)) := by
  rcases he : ensureDocumentOpen resolve fs s filePath with
    ⟨uri, s', frames, reads⟩
  constructor
  · intro hn
    simp only [renameSymbol, renameSymbolContext, hc, hf, he, hn]
    simp [hn]
  · intro hn
    simp only [renameSymbol, renameSymbolContext, hc, hf, he, hn]
    simp [hn]

/-- Witness for C7: a method-not-found rejection and an ordinary
rejection at a ready client. -/
theorem renameSymbol_unsupported_absence_witness :
    (renameSymbol id (fun _ => "") stateReady "/w/a.ts"
      { line := 1, character := 2 } "newName"
      (.error (.errorObj "Method not found"))).result = .ok none ∧
    (renameSymbol id (fun _ => "") stateReady "/w/a.ts"
      { line := 1, character := 2 } "newName"
      (.error (.errorObj "kaboom"))).result =
      .error (wrapThrown
        (renameSymbolContext "/w/a.ts" { line := 1, character := 2 })
        (.errorObj "kaboom")) :=
  ⟨(renameSymbol_unsupported_absence id (fun _ => "") stateReady "/w/a.ts"
      { line := 1, character := 2 } "newName"
      (.errorObj "Method not found") rfl rfl).1 (by decide),
   (renameSymbol_unsupported_absence id (fun _ => "") stateReady "/w/a.ts"
      { line := 1, character := 2 } "newName"
      (.errorObj "kaboom") rfl rfl).2 (by decide)⟩

/-- C8: a hover request on a client that never became initialized yields
the not-initialized error response, writes no frame on the transport,
reads no file and leaves the state unchanged. -/
theorem lspGetHover_not_ready (resolve : String → String)
    (fs : String → String) (s : ClientState) (root input : String)
    (resp : Except Thrown (Option Hover))
    (hi : s.initialized = false) :
    (lspGetHover resolve fs s root input resp).1 =
      createErrorResponse (.errorObj "LSP client is not initialized")
        (some { operation := "lsp_get_hover", file := some input
                position := none, symbolName := none }) ∧
    (lspGetHover resolve fs s root input resp).1.isError = true ∧
    (lspGetHover resolve fs s root input resp).2.1 = s ∧
    (lspGetHover resolve fs s root input resp).2.2.1 = [] ∧
    (lspGetHover resolve fs s root input resp).2.2.2 = [] := by
  have h : lspGetHover resolve fs s root input resp =
      (createErrorResponse (.errorObj "LSP client is not initialized")
        (some { operation := "lsp_get_hover", file := some input
                position := none, symbolName := none }), s, [], []) := by
    rw [lspGetHover, if_pos (show isInitialized s = false from hi)]
  rw [h]
  exact ⟨rfl, rfl, rfl, rfl, rfl⟩

/-- Witness for C8 at the uninitialized client. -/
theorem lspGetHover_not_ready_witness :
    (lspGetHover id (fun _ => "") stateNoCaps "/r" "a.ts:1:1"
      (.ok none)).2.2.1 = [] ∧
    (lspGetHover id (fun _ => "") stateNoCaps "/r" "a.ts:1:1"
      (.ok none)).1.isError = true :=
  ⟨(lspGetHover_not_ready id (fun _ => "") stateNoCaps "/r" "a.ts:1:1"
      (.ok none) rfl).2.2.2.1,
   (lspGetHover_not_ready id (fun _ => "") stateNoCaps "/r" "a.ts:1:1"
      (.ok none) rfl).2.1⟩

/-- C6: every completion result shape is flattened to an array — null to
empty, a bare array unchanged, a container to its items (or empty when
the field is absent) — and the tool truncates the flat array to the
caller-supplied maximum, whatever the server returned. -/
theorem lspGetCompletion_flattens_truncates (resolve : String → String)
    (fs : String → String) (s : ClientState) (root input : String)
    (maxResults : Nat) (rel : String) (pos : Position)
    (raw : CompletionResult)
    (hi : s.initialized = true)
    (hparse : extractPathAndPosition input = (rel, some pos))
    (hc : s.connection = true)
    (hf : supportsFeature s "completion" = true) :
    (normalizeCompletionResult .nullResult = [] ∧
     (∀ xs, normalizeCompletionResult (.bare xs) = xs) ∧
     (∀ o, normalizeCompletionResult (.container o) = o.getD [])) ∧
    (lspGetCompletion resolve fs s root input maxResults
        (.ok raw)).1.structuredContent =
      some { completions := (normalizeCompletionResult raw).take maxResults
             file := rel, position := pos } ∧
    (∀ sc, (lspGetCompletion resolve fs s root input maxResults
        (.ok raw)).1.structuredContent = some sc →
      sc.completions.length ≤ maxResults) := by
  rcases he : ensureDocumentOpen resolve fs s (joinPath root rel) with
    ⟨uri, s', frames, reads⟩
  have hstruct : (lspGetCompletion resolve fs s root input maxResults
      (.ok raw)).1.structuredContent =
      some { completions := (normalizeCompletionResult raw).take maxResults
             file := rel, position := pos } := by
    simp only [lspGetCompletion, isInitialized, hi, hparse, getCompletion,
      hc, hf, he]
    simp
  refine ⟨⟨rfl, fun xs => rfl, fun o => rfl⟩, hstruct, ?_⟩
  intro sc hsc
  rw [hstruct] at hsc
  obtain rfl : sc =
      { completions := (normalizeCompletionResult raw).take maxResults
        file := rel, position := pos } := (Option.some.inj hsc).symm
  show ((normalizeCompletionResult raw).take maxResults).length ≤ maxResults
  rw [List.length_take]
  exact min_le_left _ _

/-- Sample completion items. -/
def itemA : CompletionItem :=
  { label := "alpha", kind := some 3, detail := some "() => void" }

def itemB : CompletionItem :=
  { label := "beta", kind := some 6, detail := none }

def itemC : CompletionItem :=
  { label := "gamma", kind := none, detail := none }

/-- Witness for C6: a container result with three items truncated to
two. -/
theorem lspGetCompletion_flattens_truncates_witness :
    (lspGetCompletion id (fun _ => "") stateReady "/r" "a.ts:1:1" 2
        (.ok (.container (some [itemA, itemB, itemC])))).1.structuredContent =
      some { completions := [itemA, itemB], file := "a.ts"
             position := { line := 0, character := 0 } } := by
  have h := (lspGetCompletion_flattens_truncates id (fun _ => "")
    stateReady "/r" "a.ts:1:1" 2 "a.ts" { line := 0, character := 0 }
    (.container (some [itemA, itemB, itemC])) rfl (by decide) rfl rfl).2.1
  rw [h]
  rfl

end Tsmcp
